import Mathlib

/-!
Verification of the fisco_autolight_client deployment core.

This file shallowly embeds, in Lean 4, the parts of the repository that the
spec's key claims talk about:

* `DeployCoordinator._run_step` and `DeployCoordinator.execute_deployment`
  (src/server/workers/deploy_coordinator.py) — the nine-stage pipeline with
  its fail-fast policy and the best-effort final console stage;
* the inner `start_lightnode_step` of stage 8, including the
  `pid[=\s]+(\d+)` PID extraction and the exception-swallowing pid callback;
* the `forward_output` loop of `console_websocket`
  (src/server/service/terminal_ws.py) — readiness-marker detection;
* the platform gate of `download_binaries` (src/server/asset_client/binaries.py);
* `LightnodeBuilder.run_build` and `LightnodeBuilder.promote_and_cleanup`
  (src/server/workers/lightnode_builder.py), over an explicit model of the
  directory tree in the output directory.

External collaborators (network, subprocesses, the certificate client) are
modelled as parameters: a step's outcome, a subprocess run's outcome, or the
file-system state it produces are inputs to the embedded functions, while the
control flow around them is translated from the Python source.
-/

namespace AutoLight

/-- `(success, message)` pair returned by every deployment step
(`Tuple[bool, str]` in the source). -/
structure StepResult where
  success : Bool
  message : String
deriving Repr, DecidableEq

/-- Observable state threaded through the coordinator: the ordered list of
progress messages emitted via `progress_callback`, and an instrumentation
counter of how many times a step function has been invoked. -/
structure CoordState where
  progress : List String
  calls : Nat
deriving Repr, DecidableEq

/-- `DeployCoordinator._report_progress`: emits one message through the
progress sink. -/
def report_progress (msg : String) (s : CoordState) : CoordState :=
  { s with progress := s.progress ++ [msg] }

/-- `DeployCoordinator._run_step(step_name, step_func)`: reports the step
name, then runs the step function and returns its result unchanged.  The step
function is modelled as a state transformer so that its own progress messages
and its invocation are observable. -/
def run_step (step_name : String) (step_func : CoordState → StepResult × CoordState)
    (s : CoordState) : StepResult × CoordState :=
  step_func (report_progress step_name s)

/-- A step function whose externally visible behaviour is: return result `r`,
emit the messages `emits` through the progress sink, and count one invocation.
All eight fallible step closures of `execute_deployment` have this shape once
their collaborators' outcomes are fixed. -/
def instrumentedStep (r : StepResult) (emits : List String) :
    CoordState → StepResult × CoordState :=
  fun s => (r, { progress := s.progress ++ emits, calls := s.calls + 1 })

/-- The step names and stage-specific failure labels of stages 1-8 of
`execute_deployment`, in pipeline order.  The failure label is the prefix
glued onto the step's message in the early `return False, f"..."`. -/
def stageData : List (String × String) :=
  [("[1/9] 正在申请和下载证书...", "证书部署失败: "),
   ("[2/9] 正在下载 build_chain.sh...", "脚本下载失败: "),
   ("[3/9] 正在下载二进制文件...", "二进制下载失败: "),
   ("[4/9] 正在使用脚本构建轻节点...", "构建失败: "),
   ("[5/9] 正在调整目录结构...", "目录调整失败: "),
   ("[6/9] 正在覆盖轻节点证书...", "证书覆盖失败: "),
   ("[7/9] 正在覆盖 config.genesis 与 nodes.json...", "链配置下载失败: "),
   ("[8/9] 正在启动轻节点...", "启动轻节点失败: ")]

/-- Stage-specific failure label of stage `k` (1-based), as used by
`execute_deployment` when stage `k` reports failure. -/
def stageFailLabel (k : Nat) : String := (stageData.getD (k - 1) ("", "")).2

/-- Everything `execute_deployment` makes observable: the returned
`(success, message)` pair, the 1-based indices of the stages whose step
functions were invoked (in order), and the progress messages emitted. -/
structure DeployTrace where
  result : Bool × String
  invoked : List Nat
  progress : List String
deriving Repr, DecidableEq

/-- The fail-fast loop over stages 1-8 of `execute_deployment`: run the stages
in order starting at index `i`; each stage first reports its step name (via
`_run_step`), then its step function runs and yields `steps i`; on success a
`[SUCCESS]` message is reported and the next stage runs, on failure the loop
stops with `(false, label ++ message)`.  Returns the terminal failure (if
any), the invoked stage indices, and the progress messages. -/
def runStagesFrom (steps : Nat → StepResult) :
    Nat → List (String × String) → Option (Bool × String) × List Nat × List String
  | _, [] => (none, [], [])
  | i, (name, label) :: rest =>
    let r := steps i
    if r.success then
      let t := runStagesFrom steps (i + 1) rest
      (t.1, i :: t.2.1, name :: ("[SUCCESS] " ++ r.message) :: t.2.2)
    else
      (some (false, label ++ r.message), [i], [name])

/-- `DeployCoordinator.execute_deployment`.  `modulesOk` models the guard
`CertificateClient is None or AssetClient is None`; `steps k` is the
`(success, message)` pair that stage `k`'s step function returns if invoked
(1 ≤ k ≤ 8); `console` is the outcome of `deploy_console` inside the stage-9
step: `.ok ()` for a normal return, `.error e` when it raises an exception
with text `e` (the stage-9 closure catches every exception). -/
def execute_deployment (modulesOk : Bool) (steps : Nat → StepResult)
    (console : Except String Unit) : DeployTrace :=
  if !modulesOk then
    ⟨(false, "错误: 客户端模块 (cert_client.py 或 asset_client.py) 未找到。"), [], []⟩
  else
    match runStagesFrom steps 1 stageData with
    | (some r, inv, prog) => ⟨r, inv, prog⟩
    | (none, inv, prog) =>
      let consoleRes : StepResult :=
        match console with
        | .ok _ => ⟨true, "控制台部署成功"⟩
        | .error e => ⟨false, "控制台部署失败: " ++ e⟩
      let tail : List String :=
        ["[9/9] 正在部署控制台...", "正在部署控制台...",
         if consoleRes.success then "[SUCCESS] " ++ consoleRes.message
         else "[WARN] " ++ consoleRes.message]
      ⟨(true, "一键部署成功完成！"), inv ++ [9], prog ++ tail⟩

/-- Substring test on character lists: `needle` occurs contiguously in the
list (the semantics of Python's `in` on strings). -/
def infixOfL (needle : List Char) : List Char → Bool
  | [] => needle.isEmpty
  | c :: t => needle.isPrefixOf (c :: t) || infixOfL needle t

/-- `needle in hay` on strings, as in `"[group0]: /apps>" in output`. -/
def containsSub (hay needle : String) : Bool := infixOfL needle.data hay.data

/-- The literal readiness prompt marker the bridge looks for. -/
def readyMarker : String := "[group0]: /apps>"

/-- The fixed diagnostic command the bridge sends when the marker is seen. -/
def diagCommand : String := "getBlockNumber\n"

/-- The readiness-detection behaviour of `forward_output` in
`console_websocket`, over the sequence of output chunks the bridge reads from
the child process.  For each chunk, `true` marks that the bridge sends
`diagCommand` to the child while processing this chunk; `initDone` is the
closed-over one-shot flag (initially `false`).  The source tests the marker
against the current chunk `output` only. -/
def forwardFires (initDone : Bool) : List String → List Bool
  | [] => []
  | c :: rest =>
    let fire := !initDone && containsSub c readyMarker
    fire :: forwardFires (initDone || fire) rest

/-- Number of times `getBlockNumber\n` is sent over a whole session whose
child process produced the given chunks. -/
def commandsSent (chunks : List String) : Nat :=
  (forwardFires false chunks).count true

/-- ASCII whitespace as recognised by Python's `str.strip` and the regex
class `\s` (the inputs of interest are ASCII). -/
def isPyWs (c : Char) : Bool :=
  c = ' ' || c = '\t' || c = '\n' || c = '\r' || c = '\x0b' || c = '\x0c'

/-- Python `str.strip()`: drop whitespace from both ends. -/
def pyStrip (s : String) : String :=
  ⟨((s.data.dropWhile isPyWs).reverse.dropWhile isPyWs).reverse⟩

/-- The character class `[=\s]` of the PID regex. -/
def isPidSep (c : Char) : Bool := c = '=' || isPyWs c

/-- Decimal value of a digit string, as `int()` on the captured group. -/
def digitsToNat (ds : List Char) : Nat :=
  ds.foldl (fun a c => a * 10 + (c.toNat - 48)) 0

/-- Attempt of the regex tail `[=\s]+(\d+)` at the text following a literal
`pid`: at least one separator, then at least one digit; the captured group is
the maximal digit run (since `[=\s]` and `\d` are disjoint, backtracking in
the Python engine cannot produce any other match here). -/
def pidMatchHere (cs : List Char) : Option Nat :=
  let seps := cs.takeWhile isPidSep
  if seps.isEmpty then none
  else
    let ds := (cs.drop seps.length).takeWhile (fun c => c.isDigit)
    if ds.isEmpty then none else some (digitsToNat ds)

/-- `re.search(r"pid[=\s]+(\d+)", ·)` over a character list: leftmost
position where the whole pattern matches; returns the captured digits as a
number. -/
def searchPidL : List Char → Option Nat
  | [] => none
  | c :: rest =>
    if ['p', 'i', 'd'].isPrefixOf (c :: rest) then
      match pidMatchHere ((c :: rest).drop 3) with
      | some n => some n
      | none => searchPidL rest
    else searchPidL rest

/-- `re.search(r"pid[=\s]+(\d+)", s)` followed by `int(match.group(1))`. -/
def searchPid (s : String) : Option Nat := searchPidL s.data

/-- `os.path.join(a, b)` for a non-empty `a` without a trailing slash and a
relative `b` — the only shape that occurs in the embedded code paths. -/
def pjoin (a b : String) : String := a ++ "/" ++ b

/-- Outcome of the `subprocess.run(["bash", "start.sh"], ...)` call of
stage 8: a completed run with its exit code and captured streams, a
`TimeoutExpired`, or any other raised exception. -/
inductive StartRun where
  | completed (returncode : Int) (stdoutS : String) (stderrS : String)
  | timedOut
  | raised (msg : String)
deriving Repr, DecidableEq

/-- The inner `start_lightnode_step` of `execute_deployment` stage 8.
`scriptExists` is `os.path.exists` of `{output_dir}/lightnode/start.sh`;
`run` the subprocess outcome; `pid_callback` the caller-supplied callback,
whose invocation may raise (`.error`).  Returns the step's `(success,
message)` pair together with the list of PIDs passed to the callback. -/
def start_lightnode_step (output_dir : String) (scriptExists : Bool) (run : StartRun)
    (pid_callback : Option (Nat → Except String Unit)) : StepResult × List Nat :=
  let script := pjoin (pjoin output_dir "lightnode") "start.sh"
  if scriptExists = false then (⟨false, "启动脚本不存在: " ++ script⟩, [])
  else
    match run with
    | .timedOut => (⟨false, "启动脚本执行超时。"⟩, [])
    | .raised e => (⟨false, "启动异常: " ++ e⟩, [])
    | .completed rc out err =>
      let stdout := pyStrip out
      let stderr := pyStrip err
      if rc ≠ 0 then
        (⟨false, "启动脚本执行失败，退出码: " ++ toString rc ++ "，stderr: " ++ stderr⟩, [])
      else
        match searchPid stdout with
        | none => (⟨false, "无法从启动脚本输出中解析出 PID。"⟩, [])
        | some pid =>
          match pid_callback with
          | none => (⟨true, "轻节点启动成功，PID: " ++ toString pid⟩, [])
          | some cb =>
            -- the source wraps the callback in try/except and ignores failure
            match cb pid with
            | .ok _ => (⟨true, "轻节点启动成功，PID: " ++ toString pid⟩, [pid])
            | .error _ => (⟨true, "轻节点启动成功，PID: " ++ toString pid⟩, [pid])

/-- Python `str.startswith`, over the character lists of the strings. -/
def startsWithL (s pre : String) : Bool := pre.data.isPrefixOf s.data

/-- Everything that happens in `download_binaries` from the first
`requests.get` on (network requests, content handling, file writes): its
eventual `(success, message)` result, and counts of network requests made and
files written.  It is opaque to the platform gate under verification. -/
structure NetRest where
  result : Bool × String
  requests : Nat
  writes : Nat

/-- The platform gate of `download_binaries` (src/server/asset_client/
binaries.py).  Output: the returned `(success, message)`, the number of
network requests, the number of files written, and whether control reached
the download code (`rest`). -/
def download_binaries (sysPlatform : String) (rest : NetRest) :
    (Bool × String) × Nat × Nat × Bool :=
  if sysPlatform = "win32" then
    ((false, "Windows 系统不支持轻节点部署"), 0, 0, false)
  else
    let platformParam : Option String :=
      if startsWithL sysPlatform "linux" then some "linux"
      else if sysPlatform = "darwin" then some "macos" else none
    match platformParam with
    | none => ((false, "不支持的操作系统: " ++ sysPlatform), 0, 0, false)
    | some _ => (rest.result, rest.requests, rest.writes, true)

/-- A node of the file-system tree below the output directory: a plain file,
or a directory with an ordered list of named entries (the order models the
directory-listing order seen by `os.walk`). -/
inductive FsNode where
  | file : FsNode
  | dir : List (String × FsNode) → FsNode
deriving Repr

/-- The contents of the output directory itself. -/
abbrev FsRoot := List (String × FsNode)

/-- Is this node a directory (`os.path.isdir` on an existing path)? -/
def isDirN : FsNode → Bool
  | .file => false
  | .dir _ => true

/-- First entry with the given name (names are unique in a real directory). -/
def findEntry : List (String × FsNode) → String → Option FsNode
  | [], _ => none
  | e :: rest, n => if e.1 = n then some e.2 else findEntry rest n

/-- Resolve a relative path below a node. -/
def lookupNode : FsNode → List String → Option FsNode
  | f, [] => some f
  | .file, _ :: _ => none
  | .dir es, n :: p =>
    match findEntry es n with
    | some f => lookupNode f p
    | none => none

/-- Resolve a path relative to the output directory. -/
def lookupRoot (fs : FsRoot) (p : List String) : Option FsNode :=
  lookupNode (.dir fs) p

/-- `os.path.exists` relative to the output directory. -/
def existsRoot (fs : FsRoot) (p : List String) : Bool :=
  (lookupRoot fs p).isSome

/-- `os.path.isdir` relative to the output directory. -/
def isDirRoot (fs : FsRoot) (p : List String) : Bool :=
  match lookupRoot fs p with
  | some f => isDirN f
  | none => false

/-- `os.path.isdir` of a path below a given node. -/
def isDirAtN (f : FsNode) (p : List String) : Bool :=
  match lookupNode f p with
  | some g => isDirN g
  | none => false

/-- Remove the entry with the given name (`shutil.rmtree` / `os.remove` of a
direct child). -/
def eraseEntry : List (String × FsNode) → String → List (String × FsNode)
  | [], _ => []
  | e :: rest, n => if e.1 = n then eraseEntry rest n else e :: eraseEntry rest n

/-- Create or replace the entry with the given name. -/
def setEntry (es : List (String × FsNode)) (n : String) (g : FsNode) :
    List (String × FsNode) :=
  eraseEntry es n ++ [(n, g)]

/-- Apply a transformation to the entry with the given name, in place. -/
def updateEntry : List (String × FsNode) → String → (FsNode → FsNode) →
    List (String × FsNode)
  | [], _, _ => []
  | e :: rest, n, g =>
    if e.1 = n then (e.1, g e.2) :: updateEntry rest n g
    else e :: updateEntry rest n g

/-- Remove the subtree at a relative path below a node. -/
def removeNode : FsNode → List String → FsNode
  | f, [] => f
  | .file, _ :: _ => .file
  | .dir es, [n] => .dir (eraseEntry es n)
  | .dir es, n :: p => .dir (updateEntry es n (fun f => removeNode f p))

/-- Place a node at a relative path below a node (parents must exist). -/
def setNode : FsNode → List String → FsNode → FsNode
  | _, [], g => g
  | .file, _ :: _, _ => .file
  | .dir es, [n], g => .dir (setEntry es n g)
  | .dir es, n :: p, g => .dir (updateEntry es n (fun f => setNode f p g))

/-- Remove the subtree at a path relative to the output directory. -/
def removeRoot (fs : FsRoot) : List String → FsRoot
  | [] => fs
  | [n] => eraseEntry fs n
  | n :: p => updateEntry fs n (fun f => removeNode f p)

/-- Place a node at a path relative to the output directory. -/
def setRoot (fs : FsRoot) : List String → FsNode → FsRoot
  | [], _ => fs
  | [n], g => setEntry fs n g
  | n :: p, g => updateEntry fs n (fun f => setNode f p g)

/-- Key `n` does not occur among the entry names. -/
def keyFree : List (String × FsNode) → String → Bool
  | [], _ => true
  | e :: rest, n => if e.1 = n then false else keyFree rest n

/-- Entry names are pairwise distinct. -/
def nodupKeys : List (String × FsNode) → Bool
  | [] => true
  | e :: rest => keyFree rest e.1 && nodupKeys rest

mutual

/-- Well-formed tree: every directory has pairwise-distinct entry names, as
any real file system guarantees. -/
def wfN : FsNode → Bool
  | .file => true
  | .dir es => nodupKeys es && wfAll es

/-- All entry subtrees are well-formed. -/
def wfAll : List (String × FsNode) → Bool
  | [] => true
  | e :: rest => wfN e.2 && wfAll rest

end

/-- The test `name in dirs` of the `os.walk` loops: the directory has a
subdirectory with that name. -/
def dirsContain (es : List (String × FsNode)) (t : String) : Bool :=
  match findEntry es t with
  | some f => isDirN f
  | none => false

mutual

/-- The `for root, dirs, _files in os.walk(...)` searches of the source:
depth-first, pre-order walk that stops at the first visited directory having
a subdirectory named `t`, returning the relative path of that subdirectory. -/
def walkFind : FsNode → String → Option (List String)
  | .file, _ => none
  | .dir es, t => if dirsContain es t then some [t] else walkFindL es t

/-- Continue the walk through the subdirectories of the current directory, in
listing order. -/
def walkFindL : List (String × FsNode) → String → Option (List String)
  | [], _ => none
  | (n, f) :: rest, t =>
    if isDirN f then
      match walkFind f t with
      | some p => some (n :: p)
      | none => walkFindL rest t
    else walkFindL rest t

end

/-- Outcome of the `subprocess.run(["bash", "build_chain.sh", ...])` call of
`LightnodeBuilder.run_build`, together with the file-system state of the
output directory after the subprocess ran. -/
structure BuildRun where
  returncode : Int
  stdoutS : String
  stderrS : String
  postFs : FsRoot

/-- `LightnodeBuilder.run_build` (src/server/workers/lightnode_builder.py):
precondition checks on `build_chain.sh`, `bin/fisco-bcos` and
`fisco-bcos-lightnode`, then the subprocess, then the `nodes/lightnode`
output check with its `os.walk` fallback.  Returns the `(success, message)`
pair and whether the subprocess was spawned.  (`_ensure_executable` only
changes permission bits, which the tree model does not represent.) -/
def run_build (output_dir : String) (fs : FsRoot) (build : BuildRun) :
    (Bool × String) × Bool :=
  if existsRoot fs ["build_chain.sh"] = false then
    ((false, "构建脚本不存在: " ++ pjoin output_dir "build_chain.sh"), false)
  else if existsRoot fs ["bin", "fisco-bcos"] = false then
    ((false, "缺少 fisco-bcos 可执行文件: " ++ pjoin (pjoin output_dir "bin") "fisco-bcos"),
      false)
  else if existsRoot fs ["fisco-bcos-lightnode"] = false then
    ((false, "缺少 fisco-bcos-lightnode 可执行文件: " ++
        pjoin output_dir "fisco-bcos-lightnode"), false)
  else
    if build.returncode ≠ 0 then
      ((false, "构建失败: " ++
          (if pyStrip build.stderrS = "" then pyStrip build.stdoutS
           else pyStrip build.stderrS)), true)
    else if isDirRoot build.postFs ["nodes", "lightnode"] then
      ((true, "轻节点构建完成"), true)
    else
      let fallback : Option (List String) :=
        match findEntry build.postFs "nodes" with
        | some (.dir nodesEs) => (walkFind (.dir nodesEs) "lightnode").map
            (fun p => "nodes" :: p)
        | _ => none
      match fallback with
      | some p =>
        if isDirRoot build.postFs p then ((true, "轻节点构建完成"), true)
        else ((false, "构建完成但未找到 nodes 内的 lightnode 目录"), true)
      | none => ((false, "构建完成但未找到 nodes 内的 lightnode 目录"), true)

/-- The promotion proper: `shutil.move(src_lightnode, dst_lightnode)`, or the
`shutil.copytree` fallback when the move raises (the cross-device case).
`fs1` is the tree after the pre-existing destination was removed. -/
def promoteDst (fs1 : FsRoot) (src : List String) (srcNode : FsNode)
    (moveRaises : Bool) : FsRoot :=
  if moveRaises then setEntry fs1 "lightnode" srcNode
  else setEntry (removeRoot fs1 src) "lightnode" srcNode

/-- The `os.walk(nodes_root)` search for an `sdk` directory, run after the
promotion (so over the already-mutated tree). -/
def sdkSearch (fs2 : FsRoot) : Option (List String) :=
  match findEntry fs2 "nodes" with
  | some (.dir ns2) => (walkFind (.dir ns2) "sdk").map (fun p => "nodes" :: p)
  | _ => none

/-- The best-effort SDK copy: if an `sdk` directory was found under `nodes`,
delete any pre-existing `lightnode/sdk` and copy the found tree there; do
nothing when nothing was found (or the copy would fail — the source swallows
copy errors). -/
def sdkCopy (fs2 : FsRoot) : FsRoot :=
  match sdkSearch fs2 with
  | some sp =>
    match lookupRoot fs2 sp with
    | some sdkNode =>
      let fsA := if existsRoot fs2 ["lightnode", "sdk"] then
                   removeRoot fs2 ["lightnode", "sdk"]
                 else fs2
      setRoot fsA ["lightnode", "sdk"] sdkNode
    | none => fs2
  | none => fs2

/-- The mutating tail of a successful `promote_and_cleanup` run: promote the
located `lightnode` source (move, or copy when the move raises), copy an
`sdk` directory found under `nodes` (best-effort), and finally remove the
`nodes` tree (`shutil.rmtree(nodes_root, ignore_errors=True)`). -/
def promoteApply (fs1 : FsRoot) (src : List String) (srcNode : FsNode)
    (moveRaises : Bool) : FsRoot :=
  eraseEntry (sdkCopy (promoteDst fs1 src srcNode moveRaises)) "nodes"

/-- `LightnodeBuilder.promote_and_cleanup` (src/server/workers/
lightnode_builder.py).  `moveRaises` is whether `shutil.move` raises (the
cross-device case), selecting the `copytree` fallback.  Returns the
`(success, message)` pair and the resulting output-directory tree. -/
def promote_and_cleanup (output_dir : String) (moveRaises : Bool) (fs : FsRoot) :
    (Bool × String) × FsRoot :=
  match findEntry fs "nodes" with
  | some (.dir nodesEs) =>
    let srcPath : Option (List String) :=
      if isDirRoot fs ["nodes", "lightnode"] then some ["nodes", "lightnode"]
      else (walkFind (.dir nodesEs) "lightnode").map (fun p => "nodes" :: p)
    match srcPath with
    | none => ((false, "未在 nodes 下找到 lightnode 目录"), fs)
    | some src =>
      let fs1 := if existsRoot fs ["lightnode"] then eraseEntry fs "lightnode" else fs
      match lookupRoot fs1 src with
      | none => ((false, "目录提升失败: 源目录不存在"), fs1)
      | some srcNode =>
        ((true, "目录提升完成: " ++ pjoin output_dir "lightnode"),
          promoteApply fs1 src srcNode moveRaises)
  | _ => ((false, "未找到 nodes 目录: " ++ pjoin output_dir "nodes"), fs)

/-- C8: `_run_step(name, fn)` first emits exactly the string `name` through
the progress sink, then invokes `fn` exactly once and returns `fn`'s
`(success, message)` result unchanged; `_run_step` itself emits exactly the
one message `name`, before anything `fn` emits. -/
theorem run_step_contract (name : String) (r : StepResult) (emits : List String)
    (s : CoordState) :
    run_step name (instrumentedStep r emits) s =
      (r, { progress := s.progress ++ [name] ++ emits, calls := s.calls + 1 }) := by
  simp [run_step, instrumentedStep, report_progress]

/-- C2: if stages 1-8 all succeed, `execute_deployment` returns
`(true, "一键部署成功完成！")` whatever the stage-9 console deployment does
(`deploy_console` returning normally or raising); a raising `deploy_console`
only adds a `[WARN]`-prefixed progress message. -/
theorem deploy_console_best_effort (steps : Nat → StepResult)
    (console : Except String Unit)
    (hall : ∀ j, 1 ≤ j → j ≤ 8 → (steps j).success = true) :
    (execute_deployment true steps console).result = (true, "一键部署成功完成！") ∧
    ∀ e, console = .error e →
      ("[WARN] " ++ ("控制台部署失败: " ++ e)) ∈
        (execute_deployment true steps console).progress := by
  have h1 := hall 1 (by norm_num) (by norm_num)
  have h2 := hall 2 (by norm_num) (by norm_num)
  have h3 := hall 3 (by norm_num) (by norm_num)
  have h4 := hall 4 (by norm_num) (by norm_num)
  have h5 := hall 5 (by norm_num) (by norm_num)
  have h6 := hall 6 (by norm_num) (by norm_num)
  have h7 := hall 7 (by norm_num) (by norm_num)
  have h8 := hall 8 (by norm_num) (by norm_num)
  constructor
  · simp [execute_deployment, runStagesFrom, stageData, h1, h2, h3, h4, h5, h6, h7, h8]
  · intro e hc
    subst hc
    simp [execute_deployment, runStagesFrom, stageData, h1, h2, h3, h4, h5, h6, h7, h8]

/-- Witness for C2 at a concrete input. -/
theorem deploy_console_best_effort_w :
    (execute_deployment true (fun _ => ⟨true, "ok"⟩) (.error "crash")).result =
      (true, "一键部署成功完成！") ∧
    ("[WARN] " ++ ("控制台部署失败: " ++ "crash")) ∈
      (execute_deployment true (fun _ => ⟨true, "ok"⟩) (.error "crash")).progress := by
  have h := deploy_console_best_effort (fun _ => ⟨true, "ok"⟩) (.error "crash")
    (fun _ _ _ => rfl)
  exact ⟨h.1, h.2 "crash" rfl⟩

/-- C1: for every stage k (1 ≤ k ≤ 8) of `execute_deployment`, if the stages
before k succeed and stage k's step function returns `(false, m)`, the
coordinator returns `(false, <stage-k failure label> ++ m)` and the invoked
stages are exactly 1..k — no later step function runs. -/
theorem deploy_fail_fast (steps : Nat → StepResult) (console : Except String Unit)
    (k : Nat) (m : String) (hk1 : 1 ≤ k) (hk8 : k ≤ 8)
    (hprev : ∀ j, 1 ≤ j → j < k → (steps j).success = true)
    (hfail : steps k = ⟨false, m⟩) :
    (execute_deployment true steps console).result = (false, stageFailLabel k ++ m) ∧
    (execute_deployment true steps console).invoked = List.range' 1 k := by
  have h1 : 1 < k → (steps 1).success = true := fun h => hprev 1 (by norm_num) h
  have h2 : 2 < k → (steps 2).success = true := fun h => hprev 2 (by norm_num) h
  have h3 : 3 < k → (steps 3).success = true := fun h => hprev 3 (by norm_num) h
  have h4 : 4 < k → (steps 4).success = true := fun h => hprev 4 (by norm_num) h
  have h5 : 5 < k → (steps 5).success = true := fun h => hprev 5 (by norm_num) h
  have h6 : 6 < k → (steps 6).success = true := fun h => hprev 6 (by norm_num) h
  have h7 : 7 < k → (steps 7).success = true := fun h => hprev 7 (by norm_num) h
  interval_cases k
  · simp [execute_deployment, runStagesFrom, stageData, stageFailLabel, hfail, List.range']
  · simp [execute_deployment, runStagesFrom, stageData, stageFailLabel, hfail, List.range',
      h1 (by norm_num)]
  · simp [execute_deployment, runStagesFrom, stageData, stageFailLabel, hfail, List.range',
      h1 (by norm_num), h2 (by norm_num)]
  · simp [execute_deployment, runStagesFrom, stageData, stageFailLabel, hfail, List.range',
      h1 (by norm_num), h2 (by norm_num), h3 (by norm_num)]
  · simp [execute_deployment, runStagesFrom, stageData, stageFailLabel, hfail, List.range',
      h1 (by norm_num), h2 (by norm_num), h3 (by norm_num), h4 (by norm_num)]
  · simp [execute_deployment, runStagesFrom, stageData, stageFailLabel, hfail, List.range',
      h1 (by norm_num), h2 (by norm_num), h3 (by norm_num), h4 (by norm_num),
      h5 (by norm_num)]
  · simp [execute_deployment, runStagesFrom, stageData, stageFailLabel, hfail, List.range',
      h1 (by norm_num), h2 (by norm_num), h3 (by norm_num), h4 (by norm_num),
      h5 (by norm_num), h6 (by norm_num)]
  · simp [execute_deployment, runStagesFrom, stageData, stageFailLabel, hfail, List.range',
      h1 (by norm_num), h2 (by norm_num), h3 (by norm_num), h4 (by norm_num),
      h5 (by norm_num), h6 (by norm_num), h7 (by norm_num)]

/-- Witness for C1 at a concrete input: stage 3 fails with "boom". -/
theorem deploy_fail_fast_w :
    (execute_deployment true
        (fun j => if j ≤ 2 then ⟨true, "ok"⟩ else ⟨false, "boom"⟩) (.ok ())).result =
      (false, "二进制下载失败: boom") ∧
    (execute_deployment true
        (fun j => if j ≤ 2 then ⟨true, "ok"⟩ else ⟨false, "boom"⟩) (.ok ())).invoked =
      [1, 2, 3] := by
  have h := deploy_fail_fast
    (fun j => if j ≤ 2 then ⟨true, "ok"⟩ else ⟨false, "boom"⟩) (.ok ())
    3 "boom" (by norm_num) (by norm_num)
    (by intro j hj1 hj2; interval_cases j <;> rfl) (by rfl)
  exact ⟨h.1.trans (by decide), h.2.trans (by decide)⟩

/-- C6: the platform gate of `download_binaries`: on `sys.platform ==
"win32"` it fails with the fixed message, performing no network request and
writing no file; control reaches the download code exactly for platform
markers starting with "linux" or equal to "darwin"; whenever it does not,
no request is made and the result is a failure. -/
theorem binaries_platform_gate :
    (∀ rest : NetRest, download_binaries "win32" rest =
      ((false, "Windows 系统不支持轻节点部署"), 0, 0, false)) ∧
    (∀ (p : String) (rest : NetRest), (download_binaries p rest).2.2.2 = true ↔
      (startsWithL p "linux" = true ∨ p = "darwin")) ∧
    (∀ (p : String) (rest : NetRest), (download_binaries p rest).2.2.2 = false →
      (download_binaries p rest).2.1 = 0 ∧ (download_binaries p rest).1.1 = false) := by
  refine ⟨fun rest => rfl, fun p rest => ?_, fun p rest => ?_⟩
  · by_cases hw : p = "win32"
    · subst hw
      simp [download_binaries, (by decide : startsWithL "win32" "linux" = false)]
    · by_cases hl : startsWithL p "linux" = true
      · simp [download_binaries, hw, hl]
      · by_cases hd : p = "darwin"
        · subst hd
          simp [download_binaries, (by decide : startsWithL "darwin" "linux" = false),
            (by decide : "darwin" ≠ "win32")]
        · simp [download_binaries, hw, hl, hd]
  · by_cases hw : p = "win32"
    · subst hw
      intro _
      exact ⟨rfl, rfl⟩
    · by_cases hl : startsWithL p "linux" = true
      · simp [download_binaries, hw, hl]
      · by_cases hd : p = "darwin"
        · subst hd
          simp [download_binaries, (by decide : startsWithL "darwin" "linux" = false),
            (by decide : "darwin" ≠ "win32")]
        · simp [download_binaries, hw, hl, hd]

/-- Witness for C6 at concrete inputs. -/
theorem binaries_platform_gate_w :
    download_binaries "win32" ⟨(true, "x"), 5, 7⟩ =
      ((false, "Windows 系统不支持轻节点部署"), 0, 0, false) ∧
    ((download_binaries "linux2" ⟨(true, "x"), 5, 7⟩).2.2.2 = true ↔
      (startsWithL "linux2" "linux" = true ∨ "linux2" = "darwin")) ∧
    (download_binaries "freebsd" ⟨(true, "x"), 5, 7⟩).2.1 = 0 := by
  refine ⟨binaries_platform_gate.1 _, binaries_platform_gate.2.1 _ _,
    (binaries_platform_gate.2.2 "freebsd" ⟨(true, "x"), 5, 7⟩ (by decide)).1⟩

/-- C7: in the node-start stage with exit code 0, if the pattern
`pid[=\s]+(\d+)` matches the (stripped) stdout, the stage succeeds and the
first captured digit group is passed, as a number, to the pid callback; if
it does not match, the stage fails with the distinct cannot-parse-PID
message. -/
theorem start_step_pid_parse (od out err : String) (cb : Nat → Except String Unit) :
    (∀ pid, searchPid (pyStrip out) = some pid →
      start_lightnode_step od true (.completed 0 out err) (some cb) =
        (⟨true, "轻节点启动成功，PID: " ++ toString pid⟩, [pid])) ∧
    (searchPid (pyStrip out) = none →
      start_lightnode_step od true (.completed 0 out err) (some cb) =
        (⟨false, "无法从启动脚本输出中解析出 PID。"⟩, [])) := by
  constructor
  · intro pid hp
    cases hcb : cb pid <;> simp [start_lightnode_step, hp, hcb]
  · intro hp
    simp [start_lightnode_step, hp]

/-- Witness for C7: the spec's scenario stdout `"launched pid=4821\n"`, and a
stdout with no match. -/
theorem start_step_pid_parse_w :
    start_lightnode_step "/tmp/out" true (.completed 0 "launched pid=4821\n" "")
        (some fun _ => .ok ()) =
      (⟨true, "轻节点启动成功，PID: 4821"⟩, [4821]) ∧
    start_lightnode_step "/tmp/out" true (.completed 0 "no process id here" "")
        (some fun _ => .ok ()) =
      (⟨false, "无法从启动脚本输出中解析出 PID。"⟩, []) := by
  constructor
  · have h := (start_step_pid_parse "/tmp/out" "launched pid=4821\n" ""
      (fun _ => .ok ())).1 4821 (by decide)
    exact h.trans (by decide)
  · exact (start_step_pid_parse "/tmp/out" "no process id here" ""
      (fun _ => .ok ())).2 (by decide)

/-- C10: in the node-start stage, when a PID was parsed and the pid callback
raises, the exception is swallowed: the stage still succeeds with the PID in
its message, the callback was invoked with that PID, and the stage's
`(success, message)` result does not depend on the callback's behaviour at
all. -/
theorem start_step_callback_swallow (od out err e : String)
    (cb : Nat → Except String Unit) (pid : Nat)
    (hp : searchPid (pyStrip out) = some pid) (hr : cb pid = .error e) :
    start_lightnode_step od true (.completed 0 out err) (some cb) =
      (⟨true, "轻节点启动成功，PID: " ++ toString pid⟩, [pid]) ∧
    ∀ g : Nat → Except String Unit,
      (start_lightnode_step od true (.completed 0 out err) (some cb)).1 =
        (start_lightnode_step od true (.completed 0 out err) (some g)).1 := by
  constructor
  · simp [start_lightnode_step, hp, hr]
  · intro g
    cases hg : g pid <;> simp [start_lightnode_step, hp, hr, hg]

/-- Witness for C10: a callback that always raises. -/
theorem start_step_callback_swallow_w :
    start_lightnode_step "/srv/n" true (.completed 0 "started, pid 77" "")
        (some fun _ => .error "db down") =
      (⟨true, "轻节点启动成功，PID: 77"⟩, [77]) ∧
    (start_lightnode_step "/srv/n" true (.completed 0 "started, pid 77" "")
        (some fun _ => .error "db down")).1 =
      (start_lightnode_step "/srv/n" true (.completed 0 "started, pid 77" "")
        (some fun _ => .ok ())).1 := by
  have h := start_step_callback_swallow "/srv/n" "started, pid 77" "" "db down"
    (fun _ => .error "db down") 77 (by decide) (by rfl)
  exact ⟨h.1.trans (by decide), h.2 (fun _ => .ok ())⟩

/-- After the one-shot flag is set, the loop never sends the command again. -/
theorem forwardFires_done : ∀ l : List String,
    forwardFires true l = List.replicate l.length false
  | [] => rfl
  | c :: rest => by
    simp [forwardFires, forwardFires_done rest, List.replicate]

/-- The diagnostic command is sent at most once per session. -/
theorem commandsSent_le_one : ∀ chunks : List String, commandsSent chunks ≤ 1
  | [] => by simp [commandsSent, forwardFires]
  | c :: rest => by
    by_cases h : containsSub c readyMarker = true
    · simp [commandsSent, forwardFires, h, forwardFires_done, List.count_replicate]
    · have ih := commandsSent_le_one rest
      simpa [commandsSent, forwardFires, h] using ih

/-- The command is sent while processing the first chunk that contains the
marker. -/
theorem fires_first_marker : ∀ (chunks : List String) (i : Nat) (c : String),
    chunks.get? i = some c → containsSub c readyMarker = true →
    (∀ j d, j < i → chunks.get? j = some d → containsSub d readyMarker = false) →
    (forwardFires false chunks).get? i = some true
  | [], i, c, h, _, _ => by simp at h
  | a :: rest, 0, c, h, hc, _ => by
    simp at h
    subst h
    simp [forwardFires, hc]
  | a :: rest, i + 1, c, h, hc, hj => by
    have ha : containsSub a readyMarker = false :=
      hj 0 a (Nat.succ_pos i) rfl
    simp only [List.get?_cons_succ] at h
    have ih := fires_first_marker rest i c h hc
      (fun j d hji hjd => hj (j + 1) d (by omega) (by simpa using hjd))
    simpa [forwardFires, ha] using ih

/-- C3 counterexample: the readiness marker can arrive split across two read
chunks; the accumulated output then contains the marker, yet the bridge never
sends the diagnostic command, refuting the claim as stated over accumulated
output. -/
theorem bridge_marker_split_cex :
    containsSub (String.join ["[group0]: /ap", "ps>"]) readyMarker = true ∧
    commandsSent ["[group0]: /ap", "ps>"] = 0 := by
  constructor <;> decide

/-- C3 amended: the first time a single received output chunk contains the
literal marker `"[group0]: /apps>"`, the bridge sends `getBlockNumber\n`, and
over the whole session the command is sent at most once. -/
theorem bridge_chunk_trigger_once (chunks : List String) :
    commandsSent chunks ≤ 1 ∧
    ∀ i c, chunks.get? i = some c → containsSub c readyMarker = true →
      (∀ j d, j < i → chunks.get? j = some d → containsSub d readyMarker = false) →
      (forwardFires false chunks).get? i = some true :=
  ⟨commandsSent_le_one chunks,
   fun i c h hc hj => fires_first_marker chunks i c h hc hj⟩

/-- Witness for the amended C3 at a concrete chunk sequence. -/
theorem bridge_chunk_trigger_once_w :
    commandsSent ["x", "[group0]: /apps>", "b [group0]: /apps> c"] ≤ 1 ∧
    (forwardFires false ["x", "[group0]: /apps>", "b [group0]: /apps> c"]).get? 1 =
      some true := by
  refine ⟨(bridge_chunk_trigger_once _).1,
    (bridge_chunk_trigger_once _).2 1 "[group0]: /apps>" (by rfl) (by decide) ?_⟩
  intro j d hj hd
  interval_cases j
  simp at hd
  subst hd
  decide

/-- C5: when `outputDir/nodes` is not a directory, `promote_and_cleanup`
returns the clean failure naming the missing nodes directory and leaves the
tree untouched (no exception is modelled: the function is total here and
takes the early-return branch). -/
theorem promote_nodes_missing (od : String) (mv : Bool) (fs : FsRoot)
    (h : isDirRoot fs ["nodes"] = false) :
    promote_and_cleanup od mv fs =
      ((false, "未找到 nodes 目录: " ++ pjoin od "nodes"), fs) := by
  unfold promote_and_cleanup
  cases hf : findEntry fs "nodes" with
  | none => rfl
  | some n =>
    cases n with
    | file => rfl
    | dir es =>
      exfalso
      simp [isDirRoot, lookupRoot, lookupNode, hf, isDirN] at h

/-- Witness for C5: a tree whose `nodes` entry is absent. -/
theorem promote_nodes_missing_w :
    promote_and_cleanup "/o" false [("conf", .dir []), ("lightnode", .dir [])] =
      ((false, "未找到 nodes 目录: " ++ pjoin "/o" "nodes"),
        [("conf", .dir []), ("lightnode", .dir [])]) :=
  promote_nodes_missing "/o" false [("conf", .dir []), ("lightnode", .dir [])]
    (by decide)

/-- Erasing an entry makes its name unresolvable. -/
theorem findEntry_erase_self : ∀ (es : List (String × FsNode)) (n : String),
    findEntry (eraseEntry es n) n = none
  | [], _ => rfl
  | e :: rest, n => by
    by_cases h : e.1 = n
    · simp [eraseEntry, h, findEntry_erase_self rest n]
    · simp [eraseEntry, h, findEntry, findEntry_erase_self rest n]

/-- Erasing an entry leaves other names unchanged. -/
theorem findEntry_erase_ne : ∀ (es : List (String × FsNode)) (n m : String),
    m ≠ n → findEntry (eraseEntry es n) m = findEntry es m
  | [], _, _, _ => rfl
  | e :: rest, n, m, h => by
    by_cases h1 : e.1 = n
    · have h2 : ¬ e.1 = m := fun hc => h (hc.symm.trans h1)
      simp [eraseEntry, h1, findEntry, h2, h, Ne.symm h,
        findEntry_erase_ne rest n m h]
    · simp [eraseEntry, h1, findEntry, findEntry_erase_ne rest n m h]

/-- Resolution in a concatenated entry list: the left part takes priority. -/
theorem findEntry_append : ∀ (l ll : List (String × FsNode)) (n : String),
    findEntry (l ++ ll) n =
      match findEntry l n with
      | some f => some f
      | none => findEntry ll n
  | [], _, _ => rfl
  | e :: rest, ll, n => by
    by_cases h : e.1 = n
    · simp [findEntry, h]
    · simp [findEntry, h, findEntry_append rest ll n]

/-- Setting an entry makes its name resolve to the new node. -/
theorem findEntry_set_self (es : List (String × FsNode)) (n : String) (g : FsNode) :
    findEntry (setEntry es n g) n = some g := by
  rw [setEntry, findEntry_append, findEntry_erase_self]
  simp [findEntry]

/-- Setting an entry leaves other names unchanged. -/
theorem findEntry_set_ne (es : List (String × FsNode)) (n m : String) (g : FsNode)
    (h : m ≠ n) : findEntry (setEntry es n g) m = findEntry es m := by
  rw [setEntry, findEntry_append, findEntry_erase_ne es n m h]
  cases hf : findEntry es m <;> simp [findEntry, Ne.symm h]

/-- Updating an entry in place transforms what its name resolves to. -/
theorem findEntry_update_self : ∀ (es : List (String × FsNode)) (n : String)
    (g : FsNode → FsNode),
    findEntry (updateEntry es n g) n = (findEntry es n).map g
  | [], _, _ => rfl
  | e :: rest, n, g => by
    by_cases h : e.1 = n
    · simp [updateEntry, h, findEntry]
    · simp [updateEntry, h, findEntry, findEntry_update_self rest n g]

/-- Updating an entry in place leaves other names unchanged. -/
theorem findEntry_update_ne : ∀ (es : List (String × FsNode)) (n m : String)
    (g : FsNode → FsNode), m ≠ n →
    findEntry (updateEntry es n g) m = findEntry es m
  | [], _, _, _, _ => rfl
  | e :: rest, n, m, g, h => by
    by_cases h1 : e.1 = n
    · have h2 : ¬ e.1 = m := fun hc => h (hc.symm.trans h1)
      simp [updateEntry, h1, findEntry, h2, h, Ne.symm h,
        findEntry_update_ne rest n m g h]
    · by_cases h2 : e.1 = m
      · simp [updateEntry, h1, findEntry, h2, h, Ne.symm h]
      · simp [updateEntry, h1, findEntry, h2, findEntry_update_ne rest n m g h]

/-- A resolvable entry of a well-formed entry list is well-formed. -/
theorem wfAll_find : ∀ (es : List (String × FsNode)) (n : String) (f : FsNode),
    wfAll es = true → findEntry es n = some f → wfN f = true
  | [], _, _, _, h => by simp [findEntry] at h
  | e :: rest, n, f, hwf, h => by
    rw [wfAll, Bool.and_eq_true] at hwf
    obtain ⟨hw1, hw2⟩ := hwf
    by_cases h1 : e.1 = n
    · rw [findEntry, if_pos h1] at h
      cases h
      exact hw1
    · rw [findEntry, if_neg h1] at h
      exact wfAll_find rest n f hw2 h

/-- A result of `walkFindL` starts with the name of one of the entries. -/
theorem walkFindL_head_name : ∀ (es : List (String × FsNode)) (t : String)
    (p : List String), walkFindL es t = some p →
    ∃ m q, p = m :: q ∧ keyFree es m = false
  | [], t, p, h => by simp [walkFindL] at h
  | (n, f) :: rest, t, p, h => by
    rw [walkFindL] at h
    by_cases hd : isDirN f = true
    · rw [if_pos hd] at h
      cases hw : walkFind f t with
      | some q =>
        rw [hw] at h
        cases h
        exact ⟨n, q, rfl, by simp [keyFree]⟩
      | none =>
        rw [hw] at h
        obtain ⟨m, q, rfl, hk⟩ := walkFindL_head_name rest t p h
        refine ⟨m, q, rfl, ?_⟩
        by_cases hnm : n = m
        · simp [keyFree, hnm]
        · simp [keyFree, hnm, hk]
    · rw [if_neg hd] at h
      obtain ⟨m, q, rfl, hk⟩ := walkFindL_head_name rest t p h
      refine ⟨m, q, rfl, ?_⟩
      by_cases hnm : n = m
      · simp [keyFree, hnm]
      · simp [keyFree, hnm, hk]

mutual

/-- A directory found by the `os.walk` search resolves, along the returned
path, to a directory — provided the tree is well-formed. -/
theorem walkFind_isDir : ∀ (f : FsNode) (t : String) (p : List String),
    wfN f = true → walkFind f t = some p → isDirAtN f p = true
  | .file, _, _, _, h => by rw [walkFind] at h; cases h
  | .dir es, t, p, hwf, h => by
    rw [walkFind] at h
    rw [wfN, Bool.and_eq_true] at hwf
    obtain ⟨hnd, hwa⟩ := hwf
    by_cases hc : dirsContain es t = true
    · rw [if_pos hc] at h
      cases h
      rw [dirsContain] at hc
      cases hft : findEntry es t with
      | none => rw [hft] at hc; cases hc
      | some g =>
        rw [hft] at hc
        have hg : isDirN g = true := hc
        simp [isDirAtN, lookupNode, hft, hg]
    · rw [if_neg hc] at h
      exact walkFindL_isDir es t p hnd hwa h

/-- Same statement along the entry list of the directory being walked. -/
theorem walkFindL_isDir : ∀ (es : List (String × FsNode)) (t : String)
    (p : List String), nodupKeys es = true → wfAll es = true →
    walkFindL es t = some p → isDirAtN (.dir es) p = true
  | [], _, _, _, _, h => by rw [walkFindL] at h; cases h
  | (n, f) :: rest, t, p, hnd, hwa, h => by
    rw [walkFindL] at h
    rw [nodupKeys, Bool.and_eq_true] at hnd
    obtain ⟨hk, hnd2⟩ := hnd
    rw [wfAll, Bool.and_eq_true] at hwa
    obtain ⟨hw1, hw2⟩ := hwa
    by_cases hd : isDirN f = true
    · rw [if_pos hd] at h
      cases hw : walkFind f t with
      | some q =>
        rw [hw] at h
        cases h
        have hrec := walkFind_isDir f t q hw1 hw
        simpa [isDirAtN, lookupNode, findEntry] using hrec
      | none =>
        rw [hw] at h
        have hrec := walkFindL_isDir rest t p hnd2 hw2 h
        obtain ⟨m, q, rfl, hkm⟩ := walkFindL_head_name rest t p h
        have hk2 : keyFree rest n = true := hk
        have hnm : ¬ n = m := fun hc => by subst hc; simp [hk2] at hkm
        simpa [isDirAtN, lookupNode, findEntry, hnm] using hrec
    · rw [if_neg hd] at h
      have hrec := walkFindL_isDir rest t p hnd2 hw2 h
      obtain ⟨m, q, rfl, hkm⟩ := walkFindL_head_name rest t p h
      have hk2 : keyFree rest n = true := hk
      have hnm : ¬ n = m := fun hc => by subst hc; simp [hk2] at hkm
      simpa [isDirAtN, lookupNode, findEntry, hnm] using hrec

end

/-- Removing a subtree below a node keeps the node's kind. -/
theorem isDirN_removeNode (f : FsNode) (p : List String) :
    isDirN (removeNode f p) = isDirN f := by
  cases f with
  | file => cases p <;> rfl
  | dir es =>
    cases p with
    | nil => rfl
    | cons a q => cases q <;> rfl

/-- Placing a subtree below a node keeps the node's kind. -/
theorem isDirN_setNode (f : FsNode) (a : String) (p : List String) (g : FsNode) :
    isDirN (setNode f (a :: p) g) = isDirN f := by
  cases f with
  | file => rfl
  | dir es => cases p <;> rfl

/-- The promotion itself: afterwards `lightnode` resolves to the promoted
source node, whichever of move and copy-fallback ran. -/
theorem findEntry_promoteDst (fs1 : FsRoot) (src : List String) (srcNode : FsNode)
    (mv : Bool) :
    findEntry (promoteDst fs1 src srcNode mv) "lightnode" = some srcNode := by
  cases mv <;> simp [promoteDst, findEntry_set_self]

/-- The best-effort SDK copy only rewrites below `lightnode`: the entry stays
present and keeps its kind. -/
theorem sdkCopy_lightnode (fs2 : FsRoot) (g : FsNode)
    (h2 : findEntry fs2 "lightnode" = some g) :
    ∃ g2, findEntry (sdkCopy fs2) "lightnode" = some g2 ∧ isDirN g2 = isDirN g := by
  unfold sdkCopy
  cases hs : sdkSearch fs2 with
  | none => exact ⟨g, h2, rfl⟩
  | some sp =>
    dsimp only
    cases hl : lookupRoot fs2 sp with
    | none => exact ⟨g, h2, rfl⟩
    | some sdkNode =>
      dsimp only
      by_cases he : existsRoot fs2 ["lightnode", "sdk"] = true
      · rw [if_pos he]
        refine ⟨setNode (removeNode g ["sdk"]) ["sdk"] sdkNode, ?_, ?_⟩
        · simp [setRoot, removeRoot, findEntry_update_self, h2]
        · rw [isDirN_setNode, isDirN_removeNode]
      · rw [if_neg he]
        refine ⟨setNode g ["sdk"] sdkNode, ?_, ?_⟩
        · simp [setRoot, findEntry_update_self, h2]
        · rw [isDirN_setNode]

/-- The success tail of `promote_and_cleanup`: when the promoted source is a
directory, afterwards `nodes` is gone and `lightnode` is a directory. -/
theorem promoteApply_shape (fs1 : FsRoot) (src : List String) (srcNode : FsNode)
    (mv : Bool) (hdir : isDirN srcNode = true) :
    existsRoot (promoteApply fs1 src srcNode mv) ["nodes"] = false ∧
    isDirRoot (promoteApply fs1 src srcNode mv) ["lightnode"] = true := by
  obtain ⟨g2, hg2, hdg2⟩ := sdkCopy_lightnode (promoteDst fs1 src srcNode mv)
    srcNode (findEntry_promoteDst fs1 src srcNode mv)
  constructor
  · simp [promoteApply, existsRoot, lookupRoot, lookupNode, findEntry_erase_self]
  · have hne := findEntry_erase_ne (sdkCopy (promoteDst fs1 src srcNode mv))
      "nodes" "lightnode" (by decide)
    simp [promoteApply, isDirRoot, lookupRoot, lookupNode, hne, hg2,
      hdg2.trans hdir]

/-- Erasing a root entry does not affect resolution under another entry. -/
theorem lookupRoot_erase_cons (fs : FsRoot) (n m : String) (p : List String)
    (h : m ≠ n) :
    lookupRoot (eraseEntry fs n) (m :: p) = lookupRoot fs (m :: p) := by
  simp [lookupRoot, lookupNode, findEntry_erase_ne fs n m h]

/-- Resolution of a composite root path through its first component. -/
theorem lookupRoot_cons (fs : FsRoot) (n : String) (p : List String) (f : FsNode)
    (h : findEntry fs n = some f) : lookupRoot fs (n :: p) = lookupNode f p := by
  simp [lookupRoot, lookupNode, h]

/-- Unfolding of `isDirRoot` into the resolved node. -/
theorem isDirRoot_exists (fs : FsRoot) (p : List String)
    (h : isDirRoot fs p = true) :
    ∃ g, lookupRoot fs p = some g ∧ isDirN g = true := by
  unfold isDirRoot at h
  cases hl : lookupRoot fs p with
  | none => rw [hl] at h; cases h
  | some g => rw [hl] at h; exact ⟨g, rfl, h⟩

/-- Unfolding of `isDirAtN` into the resolved node. -/
theorem isDirAtN_exists (f : FsNode) (p : List String)
    (h : isDirAtN f p = true) :
    ∃ g, lookupNode f p = some g ∧ isDirN g = true := by
  unfold isDirAtN at h
  cases hl : lookupNode f p with
  | none => rw [hl] at h; cases h
  | some g => rw [hl] at h; exact ⟨g, rfl, h⟩

/-- C4: whenever `promote_and_cleanup` reports success on a well-formed tree,
afterwards `outputDir/nodes` does not exist and `outputDir/lightnode` exists
and is a directory — both on the move path (`moveRaises = false`) and on the
copy fallback (`moveRaises = true`). -/
theorem promote_success_dirs (od : String) (mv : Bool) (fs : FsRoot)
    (hwf : wfAll fs = true)
    (hs : (promote_and_cleanup od mv fs).1.1 = true) :
    existsRoot (promote_and_cleanup od mv fs).2 ["nodes"] = false ∧
    isDirRoot (promote_and_cleanup od mv fs).2 ["lightnode"] = true := by
  unfold promote_and_cleanup at hs ⊢
  cases hroot : findEntry fs "nodes" with
  | none => rw [hroot] at hs; simp at hs
  | some nd =>
    cases nd with
    | file => rw [hroot] at hs; simp at hs
    | dir nodesEs =>
      rw [hroot] at hs
      dsimp only at hs ⊢
      by_cases hdir : isDirRoot fs ["nodes", "lightnode"] = true
      · rw [if_pos hdir] at hs ⊢
        dsimp only at hs ⊢
        obtain ⟨g, hg, hdg⟩ := isDirRoot_exists fs ["nodes", "lightnode"] hdir
        by_cases hex : existsRoot fs ["lightnode"] = true
        · rw [if_pos hex] at hs ⊢
          have hlook : lookupRoot (eraseEntry fs "lightnode")
              ["nodes", "lightnode"] = some g := by
            rw [lookupRoot_erase_cons fs "lightnode" "nodes" _ (by decide), hg]
          rw [hlook] at hs ⊢
          exact promoteApply_shape _ _ g mv hdg
        · rw [if_neg hex] at hs ⊢
          rw [hg] at hs ⊢
          exact promoteApply_shape _ _ g mv hdg
      · rw [if_neg hdir] at hs ⊢
        cases hw : walkFind (.dir nodesEs) "lightnode" with
        | none => rw [hw] at hs; simp at hs
        | some p =>
          dsimp only [Option.map]
          have hwfn : wfN (.dir nodesEs) = true := wfAll_find fs "nodes" _ hwf hroot
          obtain ⟨g, hg, hdg⟩ :=
            isDirAtN_exists _ _ (walkFind_isDir (.dir nodesEs) "lightnode" p hwfn hw)
          have hfsg : lookupRoot fs ("nodes" :: p) = some g := by
            rw [lookupRoot_cons fs "nodes" p _ hroot, hg]
          by_cases hex : existsRoot fs ["lightnode"] = true
          · rw [if_pos hex]
            have hlook : lookupRoot (eraseEntry fs "lightnode") ("nodes" :: p) =
                some g := by
              rw [lookupRoot_erase_cons fs "lightnode" "nodes" p (by decide), hfsg]
            rw [hlook]
            exact promoteApply_shape _ _ g mv hdg
          · rw [if_neg hex]
            rw [hfsg]
            exact promoteApply_shape _ _ g mv hdg

/-- Witness for C4: a build tree where `lightnode` sits below
`nodes/127.0.0.1` (the fallback-search case), a stale file at the
destination, and the copy fallback taken. -/
theorem promote_success_dirs_w :
    existsRoot (promote_and_cleanup "/o" true
      [("conf", .dir []),
       ("nodes", .dir [("127.0.0.1", .dir
          [("lightnode", .dir [("start.sh", .file)]), ("sdk", .dir [])])]),
       ("lightnode", .file)]).2 ["nodes"] = false ∧
    isDirRoot (promote_and_cleanup "/o" true
      [("conf", .dir []),
       ("nodes", .dir [("127.0.0.1", .dir
          [("lightnode", .dir [("start.sh", .file)]), ("sdk", .dir [])])]),
       ("lightnode", .file)]).2 ["lightnode"] = true :=
  promote_success_dirs "/o" true
    [("conf", .dir []),
     ("nodes", .dir [("127.0.0.1", .dir
        [("lightnode", .dir [("start.sh", .file)]), ("sdk", .dir [])])]),
     ("lightnode", .file)]
    (by decide) (by decide)

/-- C9: `run_build` fails, naming the missing file, without spawning the
subprocess whenever `build_chain.sh`, `bin/fisco-bcos` or
`fisco-bcos-lightnode` is missing (checked in that order); the subprocess is
spawned exactly when all three exist. -/
theorem run_build_preconditions (od : String) (fs : FsRoot) (b : BuildRun) :
    (existsRoot fs ["build_chain.sh"] = false →
      run_build od fs b =
        ((false, "构建脚本不存在: " ++ pjoin od "build_chain.sh"), false)) ∧
    (existsRoot fs ["build_chain.sh"] = true →
     existsRoot fs ["bin", "fisco-bcos"] = false →
      run_build od fs b =
        ((false, "缺少 fisco-bcos 可执行文件: " ++ pjoin (pjoin od "bin") "fisco-bcos"),
          false)) ∧
    (existsRoot fs ["build_chain.sh"] = true →
     existsRoot fs ["bin", "fisco-bcos"] = true →
     existsRoot fs ["fisco-bcos-lightnode"] = false →
      run_build od fs b =
        ((false, "缺少 fisco-bcos-lightnode 可执行文件: " ++
            pjoin od "fisco-bcos-lightnode"), false)) ∧
    (existsRoot fs ["build_chain.sh"] = true →
     existsRoot fs ["bin", "fisco-bcos"] = true →
     existsRoot fs ["fisco-bcos-lightnode"] = true →
      (run_build od fs b).2 = true) := by
  refine ⟨fun h1 => ?_, fun h1 h2 => ?_, fun h1 h2 h3 => ?_, fun h1 h2 h3 => ?_⟩
  · simp [run_build, h1]
  · simp [run_build, h1, h2]
  · simp [run_build, h1, h2, h3]
  · unfold run_build
    rw [if_neg (by simp [h1]), if_neg (by simp [h2]), if_neg (by simp [h3])]
    split
    · rfl
    · split
      · rfl
      · dsimp only
        split
        · split <;> rfl
        · rfl

/-- Witness for C9: one tree missing the lightnode binary, one complete. -/
theorem run_build_preconditions_w :
    run_build "/o" [("build_chain.sh", .file), ("bin", .dir [("fisco-bcos", .file)])]
        ⟨0, "", "", []⟩ =
      ((false, "缺少 fisco-bcos-lightnode 可执行文件: " ++
          pjoin "/o" "fisco-bcos-lightnode"), false) ∧
    (run_build "/o" [("build_chain.sh", .file), ("bin", .dir [("fisco-bcos", .file)]),
        ("fisco-bcos-lightnode", .file)] ⟨1, "out", "err", []⟩).2 = true := by
  refine ⟨(run_build_preconditions "/o"
      [("build_chain.sh", .file), ("bin", .dir [("fisco-bcos", .file)])]
      ⟨0, "", "", []⟩).2.2.1 (by decide) (by decide) (by decide),
    (run_build_preconditions "/o"
      [("build_chain.sh", .file), ("bin", .dir [("fisco-bcos", .file)]),
       ("fisco-bcos-lightnode", .file)]
      ⟨1, "out", "err", []⟩).2.2.2 (by decide) (by decide) (by decide)⟩

end AutoLight
